import Mathlib

/-!
Verification of the panel-response normalization layer and the periodic
alert engine of `src/bot.py`.

The JSON values a panel can return are embedded as the inductive `JVal`;
Python dictionaries become ordered association lists, Python numbers
(ints and floats) become `Rat`, and every partial operation returns an
`Option`.  Each definition below mirrors one function of the source file
and keeps its name where Lean allows it.
-/

/-- A JSON value as decoded from a panel response.  Python dicts are
ordered association lists; ints and floats are both modelled as `Rat`. -/
inductive JVal where
  | null
  | num (q : Rat)
  | str (s : String)
  | jbool (b : Bool)
  | arr (xs : List JVal)
  | obj (fs : List (String × JVal))

/-- A Python dict of JSON values (`Dict[str, Any]`). -/
abbrev Obj := List (String × JVal)

/-- `d.get(key)`: first binding of `key` (Python dicts have unique keys). -/
def getKey : Obj → String → Option JVal
  | [], _ => none
  | (k, v) :: fs, key => if k = key then some v else getKey fs key

/-- `key in d`. -/
def hasKey (fs : Obj) (key : String) : Bool :=
  (getKey fs key).isSome

/-- Python truthiness of a JSON value: `None`, `0`, `""`, `False` and
empty containers are falsy, everything else is truthy. -/
def truthy : JVal → Bool
  | .null => false
  | .num q => q != 0
  | .str s => s != ""
  | .jbool b => b
  | .arr xs => !xs.isEmpty
  | .obj fs => !fs.isEmpty

/-- `a or b` where `a` is the result of a `.get` (so `None` on a missing
key) and `b` is a plain value. -/
def pyGetOr (a : Option JVal) (b : JVal) : JVal :=
  match a with
  | some v => if truthy v then v else b
  | none => b

/-- `a or b` where both operands are `.get` results; the chain returns
the last operand when every earlier one is falsy. -/
def pyGetOrO (a : Option JVal) (b : Option JVal) : Option JVal :=
  match a with
  | some v => if truthy v then some v else b
  | none => b

/-- `str(v)` for the scalar values that can appear in a VM record.  The
decimal rendering of non-integer numbers and of containers is
abbreviated (`Rat` repr / a placeholder); the claims below depend only
on renderings of strings and integers, and on emptiness. -/
def pyStr : JVal → String
  | .str s => s
  | .num q => if q.den = 1 then toString q.num else toString q
  | .jbool b => if b then "True" else "False"
  | .null => "None"
  | .arr _ => "[...]"
  | .obj _ => "\x7b...\x7d"

/-- Value of a nonempty string of decimal digits. -/
def digitsToNat (cs : List Char) : Nat :=
  cs.foldl (fun n c => 10 * n + (c.toNat - 48)) 0

/-- `float(s)` on a string: optional sign, decimal digits with an
optional fractional part.  Exponent/`inf`/`nan` forms, which no panel
emits for usage counters, are not modelled and yield `none` (a raise). -/
def parseFloat? (s : String) : Option Rat :=
  let cs := ((s.toList.dropWhile Char.isWhitespace).reverse.dropWhile
    Char.isWhitespace).reverse
  let signed : Int × List Char :=
    match cs with
    | '-' :: rest => (-1, rest)
    | '+' :: rest => (1, rest)
    | _ => (1, cs)
  let intPart := signed.2.takeWhile (· ≠ '.')
  match signed.2.dropWhile (· ≠ '.') with
  | [] =>
      if !intPart.isEmpty && intPart.all Char.isDigit then
        some ((signed.1 : Rat) * (digitsToNat intPart : Rat))
      else none
  | _ :: frac =>
      if (!intPart.isEmpty || !frac.isEmpty)
          && intPart.all Char.isDigit && frac.all Char.isDigit then
        some ((signed.1 : Rat) *
          ((digitsToNat intPart : Rat) + (digitsToNat frac : Rat) / (10 : Rat) ^ frac.length))
      else none

/-- `float(x)` on a JSON value: numbers pass through, numeric strings
are parsed, booleans coerce to 0/1, everything else raises (`none`). -/
def pyFloatV? : JVal → Option Rat
  | .num q => some q
  | .str s => parseFloat? s
  | .jbool b => some (if b then 1 else 0)
  | _ => none

/-- `float(x)` where `x` may be `None` (a missing key): raises. -/
def pyFloat? : Option JVal → Option Rat
  | none => none
  | some v => pyFloatV? v

/-- `to_int(x, default)` from the source: `int(float(x))`, truncating
toward zero, with `default` on any coercion failure. -/
def to_int (x : JVal) (default : Int := 0) : Int :=
  match pyFloatV? x with
  | some q => Int.tdiv q.num (q.den : Int)
  | none => default

/-- `_normalize_vps_item`: copy `vps_id`, else `id`, into a canonical
`vpsid` key when `vpsid` is absent (Python adds the new key at the end). -/
def normalize_vps_item (item : Obj) : Obj :=
  let item :=
    if hasKey item "vps_id" && !hasKey item "vpsid" then
      item ++ [("vpsid", (getKey item "vps_id").getD .null)]
    else item
  if hasKey item "id" && !hasKey item "vpsid" then
    item ++ [("vpsid", (getKey item "id").getD .null)]
  else item

/-- `_looks_like_vps`: accept when a `vpsid` key exists, or when one of
`hostname`/`name`/`primary_ip`/`ip` exists and no `uid` key does. -/
def looks_like_vps (item : Obj) : Bool :=
  if hasKey item "vpsid" then true
  else
    (hasKey item "hostname" || hasKey item "name"
      || hasKey item "primary_ip" || hasKey item "ip")
    && !hasKey item "uid"

/-- `isinstance(x, dict)`. -/
def isDict : JVal → Bool
  | .obj _ => true
  | _ => false

/-- The mapping entries of a sequence that pass the VM-likeness filter
after normalization (the comprehension shared by `pick_vps_list` and
the deep scan's list case; non-dict entries are skipped). -/
def vpsItemsOfSeq (xs : List JVal) : List Obj :=
  xs.filterMap fun x =>
    match x with
    | .obj fs =>
        let it := normalize_vps_item fs
        if looks_like_vps it then some it else none
    | _ => none

/-- The mapping values of a dict that pass the VM-likeness filter after
normalization (the dict-of-dicts case; non-dict values are skipped). -/
def vpsItemsOfDictVals (fs : Obj) : List Obj :=
  fs.filterMap fun kv =>
    match kv.2 with
    | .obj g =>
        let it := normalize_vps_item g
        if looks_like_vps it then some it else none
    | _ => none

mutual
/-- The recursive `walk` of `deep_find_vps_list`, with the mutable
`visited` counter and `found` accumulator threaded as explicit state. -/
def walkV (limit : Nat) (x : JVal) (st : Nat × List Obj) : Nat × List Obj :=
  if st.1 > limit || st.2.length > 500 then st
  else
    match x with
    | .arr xs =>
        if !xs.isEmpty && xs.all isDict then
          let items := vpsItemsOfSeq xs
          if items.length ≥ 1 then (st.1 + 1, st.2 ++ items)
          else walkL limit xs (st.1 + 1, st.2)
        else walkL limit xs (st.1 + 1, st.2)
    | .obj fs =>
        if !fs.isEmpty && fs.all (fun kv => isDict kv.2) then
          let items := vpsItemsOfDictVals fs
          if items.length ≥ 1 then (st.1 + 1, st.2 ++ items)
          else walkO limit fs (st.1 + 1, st.2)
        else walkO limit fs (st.1 + 1, st.2)
    | _ => (st.1 + 1, st.2)

/-- `for i in x: walk(i)` over a sequence's elements. -/
def walkL (limit : Nat) (xs : List JVal) (st : Nat × List Obj) : Nat × List Obj :=
  match xs with
  | [] => st
  | x :: rest => walkL limit rest (walkV limit x st)

/-- `for v in x.values(): walk(v)` over a dict's values. -/
def walkO (limit : Nat) (fs : Obj) (st : Nat × List Obj) : Nat × List Obj :=
  match fs with
  | [] => st
  | kv :: rest => walkO limit rest (walkV limit kv.2 st)
end

/-- `str(it.get("vpsid") or "")`: the identifier used for dedup. -/
def vidOf (it : Obj) : String :=
  pyStr (pyGetOr (getKey it "vpsid") (.str ""))

/-- Assignment `uniq[vid] = it` on an ordered dict: update in place when
the key exists (keeping its position), otherwise append. -/
def upsertUniq : List (String × Obj) → String → Obj → List (String × Obj)
  | [], k, v => [(k, v)]
  | (k0, v0) :: rest, k, v =>
      if k0 = k then (k0, v) :: rest else (k0, v0) :: upsertUniq rest k v

/-- Lookup in the ordered `uniq` dict. -/
def lookupUniq : List (String × Obj) → String → Option Obj
  | [], _ => none
  | (k0, v0) :: rest, k => if k0 = k then some v0 else lookupUniq rest k

/-- The `uniq` dict built by the dedup pass: entries with a nonempty
identifier keyed by it, later occurrences overwriting earlier values. -/
def uniqOf (found : List Obj) : List (String × Obj) :=
  found.foldl
    (fun u it =>
      let vid := vidOf it
      if vid = "" then u else upsertUniq u vid it)
    []

/-- Lines 381-387 of the source: dedupe by `vpsid` when any entry has
one, otherwise return the accumulated list unchanged. -/
def deep_dedupe (found : List Obj) : List Obj :=
  let uniq := uniqOf found
  if uniq.isEmpty then found else uniq.map (·.2)

/-- `deep_find_vps_list`: bounded deep scan followed by the dedup pass. -/
def deep_find_vps_list (obj : JVal) (limit : Nat := 5000) : List Obj :=
  deep_dedupe (walkV limit obj (0, [])).2

/-- The loop body of `pick_vps_list` over the well-known keys, falling
back to the deep scan when every key fails. -/
def pickLoop (api : Obj) : List String → List Obj
  | [] => deep_find_vps_list (.obj api)
  | k :: ks =>
      match getKey api k with
      | some (.arr xs) =>
          let out := vpsItemsOfSeq xs
          if out.isEmpty then pickLoop api ks else out
      | some (.obj fs) =>
          let out := vpsItemsOfDictVals fs
          if out.isEmpty then pickLoop api ks else out
      | _ => pickLoop api ks

/-- `pick_vps_list`: non-dict roots yield `[]`; otherwise try the keys
`vs`, `vps`, `data`, `result` in order, then the deep scan. -/
def pick_vps_list (api_data : JVal) : List Obj :=
  match api_data with
  | .obj fs => pickLoop fs ["vs", "vps", "data", "result"]
  | _ => []

/-- `compute_percent`: `None` for a non-positive total, otherwise the
floored integer percentage. -/
def compute_percent (used total : Rat) : Option Int :=
  if total ≤ 0 then none
  else some (Rat.floor (used / total * 100))

/-- `classify_level`: `None` stays `None`; critical is checked before
warn, both comparisons inclusive. -/
def classify_level (pct : Option Int) (warn critical : Int) : Option String :=
  match pct with
  | none => none
  | some p =>
      if p ≥ critical then some "critical"
      else if p ≥ warn then some "warn"
      else some "ok"

/-- `extract_disk_usage`: falsy-`or` chains over the used/total aliases,
then `float` coercion of both; any coercion failure yields `(None, None)`. -/
def extract_disk_usage (info : Obj) : Option Rat × Option Rat :=
  let used := pyGetOrO (getKey info "disk_used")
    (pyGetOrO (getKey info "used_disk")
      (pyGetOrO (getKey info "hdd_used") (getKey info "used_hdd")))
  let total := pyGetOrO (getKey info "disk")
    (pyGetOrO (getKey info "vps_disk")
      (pyGetOrO (getKey info "hdd") (getKey info "total_hdd")))
  match pyFloat? used, pyFloat? total with
  | some u, some t => (some u, some t)
  | _, _ => (none, none)

/-- `extract_bw_usage`: the bandwidth analogue of `extract_disk_usage`. -/
def extract_bw_usage (info : Obj) : Option Rat × Option Rat :=
  let used := pyGetOrO (getKey info "bandwidth_used")
    (pyGetOrO (getKey info "bw_used")
      (pyGetOrO (getKey info "used_bandwidth") (getKey info "used_bw")))
  let total := pyGetOrO (getKey info "bandwidth")
    (pyGetOrO (getKey info "bw")
      (pyGetOrO (getKey info "total_bandwidth") (getKey info "total_bw")))
  match pyFloat? used, pyFloat? total with
  | some u, some t => (some u, some t)
  | _, _ => (none, none)

/-- Truthiness of an optional float (`None` and `0.0` are falsy). -/
def truthyR : Option Rat → Bool
  | none => false
  | some q => q != 0

/-- `a or d` on an optional float with a plain default. -/
def pyOrR (a : Option Rat) (d : Rat) : Rat :=
  match a with
  | some q => if q != 0 then q else d
  | none => d

/-- The per-user alert settings row (`get_alert_settings`). -/
structure AlertSettings where
  alerts_enabled : Bool
  disk_warn : Int
  disk_critical : Int
  bw_warn : Int
  bw_critical : Int
  suspend_alerts : Bool
deriving DecidableEq

/-- One Alert State row: last classified levels and last suspend flag,
each absent (`none`) until first written. -/
structure AlertState where
  last_disk_level : Option String := none
  last_bw_level : Option String := none
  last_suspend : Option Int := none
deriving DecidableEq

/-- The notifications `alert_loop` can send for one VM, carrying the
data interpolated into the message text. -/
inductive Notification where
  | diskAlert (level name ip : String) (pct : Option Int)
  | bwAlert (level name ip : String) (pct : Option Int)
  | suspendAlert (name ip : String)
  | unsuspendAlert (name ip : String)
deriving DecidableEq

/-- Line 914: the observed suspend flag, via a falsy-`or` chain with
default `0` and `to_int` coercion. -/
def observed_suspended (info : Obj) : Int :=
  to_int (pyGetOr (getKey info "suspended")
    (pyGetOr (getKey info "is_suspended") (.num 0))) 0

/-- Line 919: disk percentage, guarded by float truthiness of the
extracted pair. -/
def disk_pct (info : Obj) : Option Int :=
  let u := (extract_disk_usage info).1
  let t := (extract_disk_usage info).2
  if truthyR u && truthyR t then compute_percent (pyOrR u 0) (pyOrR t 0)
  else none

/-- Line 920: bandwidth percentage. -/
def bw_pct (info : Obj) : Option Int :=
  let u := (extract_bw_usage info).1
  let t := (extract_bw_usage info).2
  if truthyR u && truthyR t then compute_percent (pyOrR u 0) (pyOrR t 0)
  else none

/-- Line 922: the newly classified disk level. -/
def disk_level (s : AlertSettings) (info : Obj) : Option String :=
  classify_level (disk_pct info) s.disk_warn s.disk_critical

/-- Line 923: the newly classified bandwidth level. -/
def bw_level (s : AlertSettings) (info : Obj) : Option String :=
  classify_level (bw_pct info) s.bw_warn s.bw_critical

/-- Line 911: the display name used in notification text. -/
def vm_name (vps_id : String) (info : Obj) : String :=
  pyStr (pyGetOr (getKey info "hostname")
    (pyGetOr (getKey info "name") (.str ("VPS " ++ vps_id))))

/-- Line 912: the display IP used in notification text. -/
def vm_ip (info : Obj) : String :=
  pyStr (pyGetOr (getKey info "primary_ip")
    (pyGetOr (getKey info "ip")
      (pyGetOr (getKey info "ipaddress") (.str "-"))))

/-- Lines 910-951 of `alert_loop`: process one VM whose detail fetch
succeeded, given the owner's settings and the previously stored Alert
State; returns the notifications sent (in order) and the state row that
is then unconditionally upserted. -/
def process_vm (s : AlertSettings) (vps_id : String) (info : Obj)
    (prev : AlertState) : List Notification × AlertState :=
  let name := vm_name vps_id info
  let ip := vm_ip info
  let suspended := observed_suspended info
  let dl := disk_level s info
  let bl := bw_level s info
  let diskNotifs : List Notification :=
    if (dl = some "warn" ∨ dl = some "critical") ∧ dl ≠ prev.last_disk_level then
      [.diskAlert (dl.getD "") name ip (disk_pct info)]
    else []
  let bwNotifs : List Notification :=
    if (bl = some "warn" ∨ bl = some "critical") ∧ bl ≠ prev.last_bw_level then
      [.bwAlert (bl.getD "") name ip (bw_pct info)]
    else []
  let suspNotifs : List Notification :=
    if s.suspend_alerts then
      match prev.last_suspend with
      | some p =>
          (if suspended = 1 ∧ p = 0 then [.suspendAlert name ip] else [])
            ++ (if suspended = 0 ∧ p = 1 then [.unsuspendAlert name ip] else [])
      | none => []
    else []
  (diskNotifs ++ bwNotifs ++ suspNotifs,
   { last_disk_level := dl, last_bw_level := bl, last_suspend := some suspended })

/-- Key of an Alert State row: (user id, profile id, vps id). -/
abbrev StateKey := Int × Int × String

/-- The raw SQL row lookup behind `get_alert_state`. -/
def lookupRow : List (StateKey × AlertState) → StateKey → Option AlertState
  | [], _ => none
  | (k0, v0) :: rest, k => if k0 = k then some v0 else lookupRow rest k

/-- `get_alert_state`: a missing row reads as all-`None` fields. -/
def get_alert_state (store : List (StateKey × AlertState)) (k : StateKey) :
    AlertState :=
  match lookupRow store k with
  | some st => st
  | none => {}

/-- `set_alert_state`: last-write-wins upsert of one row. -/
def set_alert_state : List (StateKey × AlertState) → StateKey → AlertState →
    List (StateKey × AlertState)
  | [], k, st => [(k, st)]
  | (k0, st0) :: rest, k, st =>
      if k0 = k then (k0, st) :: rest else (k0, st0) :: set_alert_state rest k st

/-- Is a notification one of the two resource-usage disk alerts? -/
def isDiskNotif : Notification → Bool
  | .diskAlert _ _ _ _ => true
  | _ => false

/-- Is a notification a bandwidth alert? -/
def isBwNotif : Notification → Bool
  | .bwAlert _ _ _ _ => true
  | _ => false

/-- Is a notification a suspend notice? -/
def isSuspendNotif : Notification → Bool
  | .suspendAlert _ _ => true
  | _ => false

/-- Is a notification an unsuspend notice? -/
def isUnsuspendNotif : Notification → Bool
  | .unsuspendAlert _ _ => true
  | _ => false

/-- Is a notification about the suspend flag at all? -/
def isSuspendKind (n : Notification) : Bool :=
  isSuspendNotif n || isUnsuspendNotif n

/-- Those nodes the deep scan treats as "the list": a non-empty sequence
of mappings or a non-empty mapping of mappings, together with the
entries of the node that pass the VM-likeness filter. -/
def node_items : JVal → Option (List Obj)
  | .arr xs =>
      if !xs.isEmpty && xs.all isDict then some (vpsItemsOfSeq xs) else none
  | .obj fs =>
      if !fs.isEmpty && fs.all (fun kv => isDict kv.2) then
        some (vpsItemsOfDictVals fs)
      else none
  | _ => none

/-- The filtered entries a single well-known-key candidate contributes
in `pick_vps_list` (empty for scalars and missing keys). -/
def candidate_items (v : Option JVal) : List Obj :=
  match v with
  | some (.arr xs) => vpsItemsOfSeq xs
  | some (.obj fs) => vpsItemsOfDictVals fs
  | _ => []

/-! ## Theorems -/

/-- Bridge between the executable `Rat.floor` used in `compute_percent`
and Mathlib's `Int.floor`. -/
theorem rat_floor_eq_intFloor (q : Rat) : Rat.floor q = ⌊q⌋ :=
  (Rat.floor_def' q).trans Rat.floor_def.symm

/-- C3: `classify_level` returns `none` on `none`; otherwise
`"critical"` when `pct ≥ critical`, else `"warn"` when `pct ≥ warn`,
else `"ok"`; both comparisons are inclusive, the critical check comes
first, and `"warn"` is returned exactly when `warn ≤ pct < critical`
(so it is unreachable when `critical < warn`). -/
theorem classify_level_spec :
    (∀ w c : Int, classify_level none w c = none) ∧
    (∀ p w c : Int, c ≤ p → classify_level (some p) w c = some "critical") ∧
    (∀ p w c : Int, w ≤ p → p < c → classify_level (some p) w c = some "warn") ∧
    (∀ p w c : Int, p < w → p < c → classify_level (some p) w c = some "ok") ∧
    (∀ p w c : Int, classify_level (some p) w c = some "warn" ↔ w ≤ p ∧ p < c) := by
  refine ⟨fun _ _ => rfl, ?_, ?_, ?_, ?_⟩
  · intro p w c h
    simp only [classify_level]
    rw [if_pos h]
  · intro p w c h1 h2
    simp only [classify_level]
    rw [if_neg (by omega), if_pos h1]
  · intro p w c h1 h2
    simp only [classify_level]
    rw [if_neg (by omega), if_neg (by omega)]
  · intro p w c
    simp only [classify_level]
    split_ifs with h1 h2 <;> simp <;> omega

/-- Witness for C3: 85% against warn 80 / critical 100 classifies as
`"warn"`. -/
theorem classify_level_spec_witness :
    classify_level (some 85) 80 100 = some "warn" :=
  classify_level_spec.2.2.1 85 80 100 (by norm_num) (by norm_num)

/-- C4: `compute_percent` returns `none` exactly when the total is
non-positive; for a positive total it is the floor of
`used / total * 100`, hence monotone in `used` for a fixed total, and
it truncates (a 79.9% ratio reports 79). -/
theorem compute_percent_spec :
    (∀ u t : Rat, compute_percent u t = none ↔ t ≤ 0) ∧
    (∀ u t : Rat, 0 < t → compute_percent u t = some ⌊u / t * 100⌋) ∧
    (∀ u v t : Rat, 0 < t → u ≤ v → ∀ p q : Int,
      compute_percent u t = some p → compute_percent v t = some q → p ≤ q) ∧
    compute_percent (799 / 10) 100 = some 79 := by
  have h2 : ∀ u t : Rat, 0 < t → compute_percent u t = some ⌊u / t * 100⌋ := by
    intro u t ht
    unfold compute_percent
    rw [if_neg (not_le.mpr ht), rat_floor_eq_intFloor]
  refine ⟨?_, h2, ?_, ?_⟩
  · intro u t
    unfold compute_percent
    split_ifs with h <;> simp [h]
  · intro u v t ht huv p q hp hq
    rw [h2 u t ht] at hp
    rw [h2 v t ht] at hq
    obtain rfl : p = ⌊u / t * 100⌋ := by injection hp.symm
    obtain rfl : q = ⌊v / t * 100⌋ := by injection hq.symm
    exact Int.floor_le_floor (by gcongr)
  · rw [h2 _ _ (by norm_num)]
    rw [show ((799 : Rat) / 10) / 100 * 100 = 799 / 10 by ring]
    norm_num

/-- Witness for C4: the positive-total equation instantiated at
used 20, total 1. -/
theorem compute_percent_spec_witness :
    compute_percent 20 1 = some ⌊(20 : Rat) / 1 * 100⌋ :=
  compute_percent_spec.2.1 20 1 (by norm_num)

/-- C10 counterexample: with `disk_used = 0`, `used_hdd = 0` (both
falsy, neither truthy) and a positive `disk` total, the or-chain ends
in the value `0` of the last alias, `float(0)` succeeds, and the
extractor returns `(0, 50)`, not `(None, None)` as claimed. -/
theorem extract_disk_usage_zero_alias_cex :
    extract_disk_usage
        [("disk_used", .num 0), ("used_hdd", .num 0), ("disk", .num 50)]
      = (some 0, some 50) ∧
    (some (0 : Rat), some (50 : Rat)) ≠ ((none, none) : Option Rat × Option Rat) :=
  ⟨rfl, by simp⟩

/-- C10 (amended): when `disk_used` is numeric zero and the other used
aliases are absent, `extract_disk_usage` returns `(None, None)` even
with a positive total (analogously for bandwidth); and whenever the
extracted used value is falsy (`None` or zero) the engine computes no
percentage and classifies the level as `None`, never `"ok"`. -/
theorem extract_usage_falsy_spec :
    (∀ info : Obj, getKey info "disk_used" = some (.num 0) →
      getKey info "used_disk" = none → getKey info "hdd_used" = none →
      getKey info "used_hdd" = none → extract_disk_usage info = (none, none)) ∧
    (∀ info : Obj, truthyR (extract_disk_usage info).1 = false →
      ∀ s : AlertSettings, disk_pct info = none ∧ disk_level s info = none) ∧
    (∀ info : Obj, getKey info "bandwidth_used" = some (.num 0) →
      getKey info "bw_used" = none → getKey info "used_bandwidth" = none →
      getKey info "used_bw" = none → extract_bw_usage info = (none, none)) ∧
    (∀ info : Obj, truthyR (extract_bw_usage info).1 = false →
      ∀ s : AlertSettings, bw_pct info = none ∧ bw_level s info = none) := by
  refine ⟨?_, ?_, ?_, ?_⟩
  · intro info h1 h2 h3 h4
    unfold extract_disk_usage
    rw [h1, h2, h3, h4]
    simp [pyGetOrO, truthy, pyFloat?]
  · intro info h s
    have hpct : disk_pct info = none := by
      simp [disk_pct, h]
    exact ⟨hpct, by simp [disk_level, hpct, classify_level]⟩
  · intro info h1 h2 h3 h4
    unfold extract_bw_usage
    rw [h1, h2, h3, h4]
    simp [pyGetOrO, truthy, pyFloat?]
  · intro info h s
    have hpct : bw_pct info = none := by
      simp [bw_pct, h]
    exact ⟨hpct, by simp [bw_level, hpct, classify_level]⟩

/-- Witness for the amended C10: the claim's own example, `disk_used = 0`
with `disk = 50` and no other used alias, yields `(None, None)`. -/
theorem extract_usage_falsy_spec_witness :
    extract_disk_usage [("disk_used", .num 0), ("disk", .num 50)] = (none, none) :=
  extract_usage_falsy_spec.1 [("disk_used", .num 0), ("disk", .num 50)] rfl rfl rfl rfl

/-- C1: lines 927-937 — for a processed VM, exactly one disk (resp.
bandwidth) notification is emitted when the newly classified level is
`"warn"` or `"critical"` and differs from the stored level, and none
otherwise (in particular never for `"ok"`, `None`, or an unchanged
level). -/
theorem resource_notification_iff :
    ∀ (s : AlertSettings) (vps_id : String) (info : Obj) (prev : AlertState),
      ((process_vm s vps_id info prev).1.countP isDiskNotif =
        if (disk_level s info = some "warn" ∨ disk_level s info = some "critical")
            ∧ disk_level s info ≠ prev.last_disk_level then 1 else 0) ∧
      ((process_vm s vps_id info prev).1.countP isBwNotif =
        if (bw_level s info = some "warn" ∨ bw_level s info = some "critical")
            ∧ bw_level s info ≠ prev.last_bw_level then 1 else 0) := by
  intro s vid info prev
  constructor <;>
  · simp only [process_vm, List.countP_append]
    cases hps : prev.last_suspend <;>
      split_ifs <;>
        simp_all [List.countP_cons, List.countP_nil, isDiskNotif, isBwNotif]

/-- Row lookup after an upsert of the same key returns the new row. -/
theorem lookupRow_set (store : List (StateKey × AlertState)) (k : StateKey)
    (st : AlertState) : lookupRow (set_alert_state store k st) k = some st := by
  induction store with
  | nil => simp [set_alert_state, lookupRow]
  | cons kv rest ih =>
      obtain ⟨k0, st0⟩ := kv
      by_cases hk : k0 = k
      · simp [set_alert_state, lookupRow, hk]
      · simp [set_alert_state, lookupRow, hk, ih]

/-- C2: on the first-ever poll of a VM (no Alert State row, so the
stored `last_suspend` is `None`) no suspend or unsuspend notification
is emitted whatever the observed flag, and the upserted row stores
`last_suspend` equal to the observed flag; on later polls a suspend
notice fires exactly on a 0→1 flip and an unsuspend notice exactly on a
1→0 flip, gated by the owner's `suspend_alerts` setting. -/
theorem suspend_alert_spec :
    (∀ (store : List (StateKey × AlertState)) (k : StateKey) (s : AlertSettings)
        (info : Obj),
      lookupRow store k = none →
        (process_vm s k.2.2 info (get_alert_state store k)).1.countP isSuspendKind = 0 ∧
        (get_alert_state
            (set_alert_state store k
              (process_vm s k.2.2 info (get_alert_state store k)).2)
            k).last_suspend = some (observed_suspended info)) ∧
    (∀ (s : AlertSettings) (vid : String) (info : Obj) (prev : AlertState) (p : Int),
      prev.last_suspend = some p →
        (process_vm s vid info prev).1.countP isSuspendNotif =
          (if s.suspend_alerts ∧ observed_suspended info = 1 ∧ p = 0 then 1 else 0) ∧
        (process_vm s vid info prev).1.countP isUnsuspendNotif =
          (if s.suspend_alerts ∧ observed_suspended info = 0 ∧ p = 1 then 1 else 0)) := by
  constructor
  · intro store k s info hnone
    have hprev : get_alert_state store k = {} := by
      simp [get_alert_state, hnone]
    constructor
    · rw [hprev]
      simp only [process_vm, List.countP_append]
      split_ifs <;>
        simp [isSuspendKind, isSuspendNotif, isUnsuspendNotif,
          List.countP_cons, List.countP_nil]
    · simp only [get_alert_state, lookupRow_set]
      simp [process_vm]
  · intro s vid info prev p hp
    simp only [process_vm, List.countP_append, hp]
    constructor <;>
      split_ifs <;>
        simp_all [List.countP_cons, List.countP_nil,
          isSuspendNotif, isUnsuspendNotif]

/-- Witness for C2: a first poll observing `suspended = 1` emits no
suspend-kind notification and stores `last_suspend = 1`. -/
theorem suspend_alert_spec_witness :
    (process_vm ⟨true, 80, 100, 80, 100, true⟩ "7" [("suspended", .num 1)]
        (get_alert_state [] (1, 2, "7"))).1.countP isSuspendKind = 0 ∧
    (get_alert_state
        (set_alert_state [] (1, 2, "7")
          (process_vm ⟨true, 80, 100, 80, 100, true⟩ "7" [("suspended", .num 1)]
            (get_alert_state [] (1, 2, "7"))).2)
        (1, 2, "7")).last_suspend = some (observed_suspended [("suspended", .num 1)]) :=
  suspend_alert_spec.1 [] (1, 2, "7") ⟨true, 80, 100, 80, 100, true⟩
    [("suspended", .num 1)] rfl

/-- C5 counterexample: the top node is a non-empty sequence of mappings
in which no entry passes the VM-likeness filter, yet the scan recurses
into its children and extracts a nested record, instead of stopping at
the node with an empty extraction as claimed. -/
theorem deep_scan_recurse_cex :
    node_items (.arr [.obj [("uid", .num 1),
        ("k", .obj [("x", .obj [("vpsid", .str "9")])])]]) = some [] ∧
    deep_find_vps_list (.arr [.obj [("uid", .num 1),
        ("k", .obj [("x", .obj [("vpsid", .str "9")])])]]) = [[("vpsid", .str "9")]] :=
  ⟨rfl, rfl⟩

/-- C5 (amended): when a visited node is a non-empty all-mapping
sequence or mapping and at least one entry passes the VM-likeness
filter, the walk appends exactly those entries and does not recurse
into the node's children; when no entry passes, the walk does recurse. -/
theorem deep_scan_list_node_spec :
    ∀ (limit : Nat) (x : JVal) (items : List Obj) (v : Nat) (f : List Obj),
      node_items x = some items → items ≠ [] → v ≤ limit → f.length ≤ 500 →
      walkV limit x (v, f) = (v + 1, f ++ items) := by
  intro limit x items v f hni hne hv hf
  have hlen : items.length ≥ 1 := List.length_pos.mpr hne
  cases x with
  | arr xs =>
      simp only [node_items] at hni
      split at hni
      case isTrue hc =>
        injection hni with hX
        subst hX
        rw [walkV.eq_def, if_neg (by simp; omega)]
        simp [hc, hlen]
      case isFalse hc => cases hni
  | obj fs =>
      simp only [node_items] at hni
      split at hni
      case isTrue hc =>
        injection hni with hX
        subst hX
        rw [walkV.eq_def, if_neg (by simp; omega)]
        simp [hc, hlen]
      case isFalse hc => cases hni
  | null => cases hni
  | num q => cases hni
  | str s => cases hni
  | jbool b => cases hni

/-- Witness for the amended C5: a singleton list node with a passing
entry is consumed in one step. -/
theorem deep_scan_list_node_spec_witness :
    walkV 5000 (.arr [.obj [("vpsid", .str "1")]]) (0, []) =
      (0 + 1, [] ++ [[("vpsid", .str "1")]]) :=
  deep_scan_list_node_spec 5000 (.arr [.obj [("vpsid", .str "1")]])
    [[("vpsid", .str "1")]] 0 [] rfl (by simp) (by norm_num) (by norm_num)

/-- A well-known key whose candidate yields a non-empty filtered list
is answered immediately by the key loop. -/
theorem pickLoop_hit (api : Obj) (k : String) (ks : List String)
    (h : candidate_items (getKey api k) ≠ []) :
    pickLoop api (k :: ks) = candidate_items (getKey api k) := by
  cases hv : getKey api k with
  | none => simp [candidate_items, hv] at h
  | some v =>
      cases v with
      | arr xs =>
          simp only [candidate_items, hv] at h ⊢
          simp only [pickLoop, hv]
          rw [if_neg (by simpa [List.isEmpty_iff] using h)]
      | obj fs =>
          simp only [candidate_items, hv] at h ⊢
          simp only [pickLoop, hv]
          rw [if_neg (by simpa [List.isEmpty_iff] using h)]
      | null => simp [candidate_items, hv] at h
      | num q => simp [candidate_items, hv] at h
      | str s => simp [candidate_items, hv] at h
      | jbool b => simp [candidate_items, hv] at h

/-- A well-known key whose candidate filters to nothing is skipped by
the key loop. -/
theorem pickLoop_skip (api : Obj) (k : String) (ks : List String)
    (h : candidate_items (getKey api k) = []) :
    pickLoop api (k :: ks) = pickLoop api ks := by
  cases hv : getKey api k with
  | none => simp [pickLoop, hv]
  | some v =>
      cases v <;> simp_all [pickLoop, hv, candidate_items, List.isEmpty_iff]

/-- C8: `pick_vps_list` tries `vs`, `vps`, `data`, `result` in that
order, keeps the filtered mapping entries (of a sequence) or mapping
values (of a mapping) of each candidate, and returns the first
non-empty filtered result without consulting later keys or the deep
scan; on Scenario D's root it yields exactly the two records with ids
"101" and "102". -/
theorem pick_vps_list_keys_spec :
    (∀ api : Obj,
      (candidate_items (getKey api "vs") ≠ [] →
        pick_vps_list (.obj api) = candidate_items (getKey api "vs")) ∧
      (candidate_items (getKey api "vs") = [] →
        candidate_items (getKey api "vps") ≠ [] →
        pick_vps_list (.obj api) = candidate_items (getKey api "vps")) ∧
      (candidate_items (getKey api "vs") = [] →
        candidate_items (getKey api "vps") = [] →
        candidate_items (getKey api "data") ≠ [] →
        pick_vps_list (.obj api) = candidate_items (getKey api "data")) ∧
      (candidate_items (getKey api "vs") = [] →
        candidate_items (getKey api "vps") = [] →
        candidate_items (getKey api "data") = [] →
        candidate_items (getKey api "result") ≠ [] →
        pick_vps_list (.obj api) = candidate_items (getKey api "result"))) ∧
    pick_vps_list (.obj [("vs", .obj [
        ("101", .obj [("hostname", .str "a"), ("vpsid", .str "101")]),
        ("102", .obj [("hostname", .str "b"), ("vpsid", .str "102")])])]) =
      [[("hostname", .str "a"), ("vpsid", .str "101")],
       [("hostname", .str "b"), ("vpsid", .str "102")]] := by
  refine ⟨fun api => ⟨?_, ?_, ?_, ?_⟩, rfl⟩
  · intro h1
    show pickLoop api ["vs", "vps", "data", "result"] = _
    rw [pickLoop_hit _ _ _ h1]
  · intro h1 h2
    show pickLoop api ["vs", "vps", "data", "result"] = _
    rw [pickLoop_skip _ _ _ h1, pickLoop_hit _ _ _ h2]
  · intro h1 h2 h3
    show pickLoop api ["vs", "vps", "data", "result"] = _
    rw [pickLoop_skip _ _ _ h1, pickLoop_skip _ _ _ h2, pickLoop_hit _ _ _ h3]
  · intro h1 h2 h3 h4
    show pickLoop api ["vs", "vps", "data", "result"] = _
    rw [pickLoop_skip _ _ _ h1, pickLoop_skip _ _ _ h2,
      pickLoop_skip _ _ _ h3, pickLoop_hit _ _ _ h4]

/-- Witness for C8: a root whose `vs` key holds one VM record is
answered from that key. -/
theorem pick_vps_list_keys_spec_witness :
    pick_vps_list (.obj [("vs", .arr [.obj [("vpsid", .str "1")]])]) =
      candidate_items (getKey [("vs", .arr [.obj [("vpsid", .str "1")]])] "vs") :=
  (pick_vps_list_keys_spec.1 _).1 (List.cons_ne_nil _ _)

/-- Looking up the upserted key returns the new value. -/
theorem lookupUniq_upsert_self (u : List (String × Obj)) (k : String) (v : Obj) :
    lookupUniq (upsertUniq u k v) k = some v := by
  induction u with
  | nil => simp [upsertUniq, lookupUniq]
  | cons kv rest ih =>
      obtain ⟨k0, v0⟩ := kv
      by_cases hk : k0 = k
      · simp [upsertUniq, lookupUniq, hk]
      · simp [upsertUniq, lookupUniq, hk, ih]

/-- Upserting one key does not change lookups of another key. -/
theorem lookupUniq_upsert_other (u : List (String × Obj)) (k k2 : String)
    (v : Obj) (h : k2 ≠ k) :
    lookupUniq (upsertUniq u k v) k2 = lookupUniq u k2 := by
  induction u with
  | nil => simp [upsertUniq, lookupUniq, Ne.symm h]
  | cons kv rest ih =>
      obtain ⟨k0, v0⟩ := kv
      by_cases hk : k0 = k
      · subst hk
        simp [upsertUniq, lookupUniq, Ne.symm h]
      · by_cases hk2 : k0 = k2 <;> simp [upsertUniq, lookupUniq, hk, hk2, ih, h]

/-- The last element of a cons, phrased through `Option.or`. -/
theorem getLast_cons_or (a : Obj) (l : List Obj) :
    (a :: l).getLast? = l.getLast?.or (some a) := by
  cases l with
  | nil => simp
  | cons b m =>
      rw [List.getLast?_cons_cons]
      cases hgl : (b :: m).getLast? with
      | none => simp [List.getLast?_eq_none_iff] at hgl
      | some x => simp

/-- An upsert never produces the empty dict. -/
theorem upsertUniq_ne_nil (u : List (String × Obj)) (k : String) (v : Obj) :
    upsertUniq u k v ≠ [] := by
  cases u with
  | nil => simp [upsertUniq]
  | cons kv rest =>
      obtain ⟨k0, v0⟩ := kv
      simp only [upsertUniq]
      split <;> simp

/-- The dedup fold keeps a non-empty accumulator non-empty. -/
theorem uniqFold_ne_nil (found : List Obj) (u : List (String × Obj)) (hu : u ≠ []) :
    found.foldl
      (fun u it =>
        let vid := vidOf it
        if vid = "" then u else upsertUniq u vid it) u ≠ [] := by
  induction found generalizing u with
  | nil => exact hu
  | cons it rest ih =>
      simp only [List.foldl_cons]
      apply ih
      by_cases hvid : vidOf it = ""
      · simpa [hvid] using hu
      · simpa [hvid] using upsertUniq_ne_nil u (vidOf it) it

/-- The dedup fold's lookup at a non-empty id is the last matching
accumulated entry, falling back to the accumulator. -/
theorem uniqFold_lookup (vid : String) (hvid : vid ≠ "") (found : List Obj) :
    ∀ u : List (String × Obj),
      lookupUniq
        (found.foldl
          (fun u it =>
            let v := vidOf it
            if v = "" then u else upsertUniq u v it) u) vid =
        ((found.filter (fun it => vidOf it == vid)).getLast?).or (lookupUniq u vid) := by
  induction found with
  | nil => intro u; simp
  | cons it rest ih =>
      intro u
      simp only [List.foldl_cons, List.filter_cons]
      by_cases h1 : vidOf it = vid
      · have hstep : (if vidOf it = "" then u else upsertUniq u (vidOf it) it)
            = upsertUniq u vid it := by
          rw [h1, if_neg hvid]
        rw [hstep, ih, lookupUniq_upsert_self,
          if_pos (show (vidOf it == vid) = true by simpa using h1),
          getLast_cons_or, Option.or_assoc]
        simp [Option.or]
      · have hfc : ¬((vidOf it == vid) = true) := by simpa using h1
        by_cases h2 : vidOf it = ""
        · rw [if_pos h2, ih, if_neg hfc]
        · rw [if_neg h2, ih,
            lookupUniq_upsert_other _ _ _ _ (fun hc => h1 hc.symm), if_neg hfc]

/-- The dedup fold yields the empty dict exactly when the accumulator
was empty and no entry carries a nonempty identifier. -/
theorem uniqFold_eq_nil_iff (found : List Obj) :
    ∀ u : List (String × Obj),
      found.foldl
        (fun u it =>
          let v := vidOf it
          if v = "" then u else upsertUniq u v it) u = []
        ↔ (u = [] ∧ ∀ it ∈ found, vidOf it = "") := by
  induction found with
  | nil => intro u; simp
  | cons it rest ih =>
      intro u
      simp only [List.foldl_cons]
      by_cases h : vidOf it = ""
      · rw [if_pos h, ih]
        simp [h]
      · rw [if_neg h, ih]
        simp [upsertUniq_ne_nil u (vidOf it) it, h]

/-- C7: after the scan accumulates `found`, the result is deduplicated
by the `vpsid` identifier with the last accumulated occurrence for a
given id winning; if no accumulated entry carries an identifier the
accumulated list is returned unchanged (dedup is skipped, not applied
destructively). -/
theorem deep_dedupe_spec :
    ∀ found : List Obj,
      ((∀ it ∈ found, vidOf it = "") → deep_dedupe found = found) ∧
      (∀ vid : String, vid ≠ "" →
        lookupUniq (uniqOf found) vid =
          (found.filter (fun it => vidOf it == vid)).getLast?) ∧
      (uniqOf found ≠ [] → deep_dedupe found = (uniqOf found).map (·.2)) := by
  intro found
  refine ⟨?_, ?_, ?_⟩
  · intro h
    have hnil : uniqOf found = [] := by
      unfold uniqOf
      rw [uniqFold_eq_nil_iff]
      exact ⟨rfl, h⟩
    simp [deep_dedupe, hnil]
  · intro vid hvid
    unfold uniqOf
    rw [uniqFold_lookup vid hvid found []]
    cases (found.filter (fun it => vidOf it == vid)).getLast? <;>
      simp [lookupUniq, Option.or]
  · intro h
    simp [deep_dedupe, List.isEmpty_iff, h]

/-- Witness for C7: two accumulated records share id "9"; the dedup
dict holds the later one. -/
theorem deep_dedupe_spec_witness :
    lookupUniq (uniqOf [[("vpsid", .str "9"), ("hostname", .str "a")],
        [("vpsid", .str "9"), ("hostname", .str "b")]]) "9" =
      ([[("vpsid", .str "9"), ("hostname", .str "a")],
        [("vpsid", .str "9"), ("hostname", .str "b")]].filter
          (fun it => vidOf it == "9")).getLast? :=
  (deep_dedupe_spec _).2.1 "9" (by decide)

/-- Every entry the sequence filter produces passes the VM-likeness
filter. -/
theorem vpsItemsOfSeq_looks (xs : List JVal) :
    ∀ it ∈ vpsItemsOfSeq xs, looks_like_vps it = true := by
  intro it hit
  simp only [vpsItemsOfSeq, List.mem_filterMap] at hit
  obtain ⟨x, hx, hsome⟩ := hit
  cases x <;> simp at hsome
  case obj fs =>
    obtain ⟨h1, rfl⟩ := hsome
    exact h1

/-- Every entry the mapping-values filter produces passes the
VM-likeness filter. -/
theorem vpsItemsOfDictVals_looks (fs : Obj) :
    ∀ it ∈ vpsItemsOfDictVals fs, looks_like_vps it = true := by
  intro it hit
  simp only [vpsItemsOfDictVals, List.mem_filterMap] at hit
  obtain ⟨kv, hkv, hsome⟩ := hit
  obtain ⟨k, x⟩ := kv
  cases x <;> simp at hsome
  case obj g =>
    obtain ⟨h1, rfl⟩ := hsome
    exact h1

/-- One-step equation: the walk returns the state unchanged once the
visit or result cap has been hit. -/
theorem walkV_guard (limit : Nat) (x : JVal) (st : Nat × List Obj)
    (hg : (decide (st.1 > limit) || decide (st.2.length > 500)) = true) :
    walkV limit x st = st := by
  rw [walkV.eq_def, if_pos hg]

/-- One-step equation: a list node that is non-empty, all-mapping and
has at least one passing entry extends `found` and stops. -/
theorem walkV_arr_hit (limit : Nat) (xs : List JVal) (st : Nat × List Obj)
    (hg : ¬((decide (st.1 > limit) || decide (st.2.length > 500)) = true))
    (hc : (!xs.isEmpty && xs.all isDict) = true)
    (hlen : (vpsItemsOfSeq xs).length ≥ 1) :
    walkV limit (.arr xs) st = (st.1 + 1, st.2 ++ vpsItemsOfSeq xs) := by
  rw [walkV.eq_def, if_neg hg]
  simp [hc, hlen]

/-- One-step equation: a list node that is not taken as "the list"
recurses into its elements. -/
theorem walkV_arr_rec (limit : Nat) (xs : List JVal) (st : Nat × List Obj)
    (hg : ¬((decide (st.1 > limit) || decide (st.2.length > 500)) = true))
    (h : ¬((!xs.isEmpty && xs.all isDict) = true ∧ (vpsItemsOfSeq xs).length ≥ 1)) :
    walkV limit (.arr xs) st = walkL limit xs (st.1 + 1, st.2) := by
  rw [walkV.eq_def, if_neg hg]
  by_cases hc : (!xs.isEmpty && xs.all isDict) = true
  · have hlen : ¬((vpsItemsOfSeq xs).length ≥ 1) := fun hl => h ⟨hc, hl⟩
    simp [hc, hlen]
  · simp [hc]

/-- One-step equation: a mapping node taken as "the list" extends
`found` and stops. -/
theorem walkV_obj_hit (limit : Nat) (fs : Obj) (st : Nat × List Obj)
    (hg : ¬((decide (st.1 > limit) || decide (st.2.length > 500)) = true))
    (hc : (!fs.isEmpty && fs.all fun kv => isDict kv.2) = true)
    (hlen : (vpsItemsOfDictVals fs).length ≥ 1) :
    walkV limit (.obj fs) st = (st.1 + 1, st.2 ++ vpsItemsOfDictVals fs) := by
  rw [walkV.eq_def, if_neg hg]
  simp [hc, hlen]

/-- One-step equation: a mapping node that is not taken as "the list"
recurses into its values. -/
theorem walkV_obj_rec (limit : Nat) (fs : Obj) (st : Nat × List Obj)
    (hg : ¬((decide (st.1 > limit) || decide (st.2.length > 500)) = true))
    (h : ¬(((!fs.isEmpty && fs.all fun kv => isDict kv.2) = true)
        ∧ (vpsItemsOfDictVals fs).length ≥ 1)) :
    walkV limit (.obj fs) st = walkO limit fs (st.1 + 1, st.2) := by
  rw [walkV.eq_def, if_neg hg]
  by_cases hc : (!fs.isEmpty && fs.all fun kv => isDict kv.2) = true
  · have hlen : ¬((vpsItemsOfDictVals fs).length ≥ 1) := fun hl => h ⟨hc, hl⟩
    simp [hc, hlen]
  · simp [hc]

/-- One-step equation: a scalar node only bumps the counter. -/
theorem walkV_scalar (limit : Nat) (x : JVal) (st : Nat × List Obj)
    (hg : ¬((decide (st.1 > limit) || decide (st.2.length > 500)) = true))
    (hna : ∀ xs, x ≠ .arr xs) (hno : ∀ fs, x ≠ .obj fs) :
    walkV limit x st = (st.1 + 1, st.2) := by
  rw [walkV.eq_def, if_neg hg]
  cases x with
  | arr xs => exact ((hna xs) rfl).elim
  | obj fs => exact ((hno fs) rfl).elim
  | null => rfl
  | num q => rfl
  | str s => rfl
  | jbool b => rfl

/-- One-step equation: the element loop on an empty list. -/
theorem walkL_nil (limit : Nat) (st : Nat × List Obj) :
    walkL limit [] st = st := by
  rw [walkL.eq_def]

/-- One-step equation: the element loop walks the head, then the tail. -/
theorem walkL_cons (limit : Nat) (x : JVal) (rest : List JVal)
    (st : Nat × List Obj) :
    walkL limit (x :: rest) st = walkL limit rest (walkV limit x st) := by
  rw [walkL.eq_def]

/-- One-step equation: the value loop on an empty dict. -/
theorem walkO_nil (limit : Nat) (st : Nat × List Obj) :
    walkO limit [] st = st := by
  rw [walkO.eq_def]

/-- One-step equation: the value loop walks the head value, then the
remaining bindings. -/
theorem walkO_cons (limit : Nat) (kv : String × JVal) (rest : Obj)
    (st : Nat × List Obj) :
    walkO limit (kv :: rest) st = walkO limit rest (walkV limit kv.2 st) := by
  rw [walkO.eq_def]

/-- The walk only ever appends filter-passing entries to `found`. -/
theorem walk_found_looks (limit : Nat) :
    ∀ (x : JVal) (st : Nat × List Obj),
      (∀ it ∈ st.2, looks_like_vps it = true) →
      ∀ it ∈ (walkV limit x st).2, looks_like_vps it = true := by
  intro x st
  refine walkV.induct limit
    (fun x st => (∀ it ∈ st.2, looks_like_vps it = true) →
      ∀ it ∈ (walkV limit x st).2, looks_like_vps it = true)
    (fun fs st => (∀ it ∈ st.2, looks_like_vps it = true) →
      ∀ it ∈ (walkO limit fs st).2, looks_like_vps it = true)
    (fun xs st => (∀ it ∈ st.2, looks_like_vps it = true) →
      ∀ it ∈ (walkL limit xs st).2, looks_like_vps it = true)
    ?_ ?_ ?_ ?_ ?_ ?_ ?_ ?_ ?_ ?_ ?_ ?_ x st
  · intro t st hg h
    rw [walkV_guard limit t st hg]
    exact h
  · intro st hg xs hc items hlen h
    rw [walkV_arr_hit limit xs st hg hc hlen]
    simp only [List.mem_append]
    rintro it (hit | hit)
    · exact h it hit
    · exact vpsItemsOfSeq_looks xs it hit
  · intro st hg xs hc items hlen ih h
    rw [walkV_arr_rec limit xs st hg (fun hcontra => hlen hcontra.2)]
    exact ih h
  · intro st hg xs hc ih h
    rw [walkV_arr_rec limit xs st hg (fun hcontra => hc hcontra.1)]
    exact ih h
  · intro st hg fs hc items hlen h
    rw [walkV_obj_hit limit fs st hg hc hlen]
    simp only [List.mem_append]
    rintro it (hit | hit)
    · exact h it hit
    · exact vpsItemsOfDictVals_looks fs it hit
  · intro st hg fs hc items hlen ih h
    rw [walkV_obj_rec limit fs st hg (fun hcontra => hlen hcontra.2)]
    exact ih h
  · intro st hg fs hc ih h
    rw [walkV_obj_rec limit fs st hg (fun hcontra => hc hcontra.1)]
    exact ih h
  · intro t st hg hna hno h
    rw [walkV_scalar limit t st hg (fun xs hx => hna xs hx) (fun fs hx => hno fs hx)]
    exact h
  · intro st h
    rw [walkL_nil]
    exact h
  · intro st x rest ih1 ih2 h
    rw [walkL_cons]
    exact ih2 (ih1 h)
  · intro st h
    rw [walkO_nil]
    exact h
  · intro st kv rest ih1 ih2 h
    rw [walkO_cons]
    exact ih2 (ih1 h)

/-- Membership in an upserted dict comes from the old dict or is the
upserted binding's value. -/
theorem mem_upsertUniq (u : List (String × Obj)) (k : String) (v : Obj) :
    ∀ p ∈ upsertUniq u k v, p ∈ u ∨ p.2 = v := by
  induction u with
  | nil => intro p hp; simp [upsertUniq] at hp; simp [hp]
  | cons kv rest ih =>
      obtain ⟨k0, v0⟩ := kv
      intro p hp
      simp only [upsertUniq] at hp
      split at hp
      · rcases List.mem_cons.mp hp with h | h
        · right; rw [h]
        · left; exact List.mem_cons_of_mem _ h
      · rcases List.mem_cons.mp hp with h | h
        · left; rw [h]; exact List.mem_cons_self _ _
        · rcases ih p h with h2 | h2
          · left; exact List.mem_cons_of_mem _ h2
          · right; exact h2

/-- Every value in the dedup dict is one of the accumulated entries. -/
theorem uniqFold_mem (found : List Obj) :
    ∀ (u : List (String × Obj)),
      ∀ p ∈ found.foldl
        (fun u it =>
          let v := vidOf it
          if v = "" then u else upsertUniq u v it) u,
        p ∈ u ∨ p.2 ∈ found := by
  induction found with
  | nil => intro u p hp; exact Or.inl hp
  | cons it rest ih =>
      intro u p hp
      simp only [List.foldl_cons] at hp
      rcases ih _ p hp with h | h
      · by_cases hvid : vidOf it = ""
        · rw [if_pos hvid] at h
          exact Or.inl h
        · rw [if_neg hvid] at h
          rcases mem_upsertUniq u (vidOf it) it p h with h2 | h2
          · exact Or.inl h2
          · exact Or.inr (h2 ▸ List.mem_cons_self _ _)
      · exact Or.inr (List.mem_cons_of_mem _ h)

/-- The dedup pass returns only accumulated entries. -/
theorem deep_dedupe_mem (found : List Obj) :
    ∀ it ∈ deep_dedupe found, it ∈ found := by
  intro it hit
  simp only [deep_dedupe] at hit
  split at hit
  · exact hit
  · simp only [List.mem_map] at hit
    obtain ⟨p, hp, rfl⟩ := hit
    rcases uniqFold_mem found [] p hp with h | h
    · cases h
    · exact h

/-- Every record the key loop returns passes the VM-likeness filter. -/
theorem pickLoop_looks (api : Obj) :
    ∀ (ks : List String), ∀ it ∈ pickLoop api ks, looks_like_vps it = true := by
  intro ks
  induction ks with
  | nil =>
      intro it hit
      simp only [pickLoop, deep_find_vps_list] at hit
      have h1 := deep_dedupe_mem _ it hit
      exact walk_found_looks 5000 (.obj api) (0, []) (by simp) it h1
  | cons k rest ih =>
      intro it hit
      simp only [pickLoop] at hit
      split at hit
      · split at hit
        · exact ih it hit
        · exact vpsItemsOfSeq_looks _ it hit
      · split at hit
        · exact ih it hit
        · exact vpsItemsOfDictVals_looks _ it hit
      · exact ih it hit

/-- C6 counterexample: a record matched through the hostname path
carries no `vpsid` key at all after normalization, so not every
returned VM record has a non-empty string identifier. -/
theorem pick_vps_list_no_id_cex :
    pick_vps_list (.obj [("vs", .arr [.obj [("hostname", .str "a")]])]) =
      [[("hostname", .str "a")]] ∧
    hasKey [("hostname", JVal.str "a")] "vpsid" = false :=
  ⟨rfl, rfl⟩

/-- C6 (amended): every record returned by `pick_vps_list` passes the
VM-likeness filter post-normalization — it has a `vpsid` key, or has
one of `hostname`/`name`/`primary_ip`/`ip` and no `uid`; records
matched by the second path may carry no identifier at all, and a
present `vpsid` need not be a non-empty string. -/
theorem pick_vps_list_vps_like :
    ∀ (root : JVal), ∀ it ∈ pick_vps_list root, looks_like_vps it = true := by
  intro root it hit
  cases root with
  | obj fs =>
      simp only [pick_vps_list] at hit
      exact pickLoop_looks fs _ it hit
  | arr xs => simp [pick_vps_list] at hit
  | null => simp [pick_vps_list] at hit
  | num q => simp [pick_vps_list] at hit
  | str s => simp [pick_vps_list] at hit
  | jbool b => simp [pick_vps_list] at hit

/-- Witness for the amended C6: the hostname-only record returned in
the counterexample does pass the filter. -/
theorem pick_vps_list_vps_like_witness :
    looks_like_vps [("hostname", JVal.str "a")] = true :=
  pick_vps_list_vps_like (.obj [("vs", .arr [.obj [("hostname", .str "a")]])])
    [("hostname", JVal.str "a")] (by exact List.mem_singleton.mpr rfl)

/-- The visited counter never exceeds `limit + 1`, whatever state the
walk starts from. -/
theorem walk_visited_le (limit : Nat) :
    ∀ (x : JVal) (st : Nat × List Obj),
      st.1 ≤ limit + 1 → (walkV limit x st).1 ≤ limit + 1 := by
  intro x st
  refine walkV.induct limit
    (fun x st => st.1 ≤ limit + 1 → (walkV limit x st).1 ≤ limit + 1)
    (fun fs st => st.1 ≤ limit + 1 → (walkO limit fs st).1 ≤ limit + 1)
    (fun xs st => st.1 ≤ limit + 1 → (walkL limit xs st).1 ≤ limit + 1)
    ?_ ?_ ?_ ?_ ?_ ?_ ?_ ?_ ?_ ?_ ?_ ?_ x st
  · intro t st hg h
    rw [walkV_guard limit t st hg]
    exact h
  · intro st hg xs hc items hlen h
    rw [walkV_arr_hit limit xs st hg hc hlen]
    simp only [Bool.or_eq_true, decide_eq_true_eq, not_or] at hg
    omega
  · intro st hg xs hc items hlen ih h
    rw [walkV_arr_rec limit xs st hg (fun hcontra => hlen hcontra.2)]
    simp only [Bool.or_eq_true, decide_eq_true_eq, not_or] at hg
    exact ih (by omega)
  · intro st hg xs hc ih h
    rw [walkV_arr_rec limit xs st hg (fun hcontra => hc hcontra.1)]
    simp only [Bool.or_eq_true, decide_eq_true_eq, not_or] at hg
    exact ih (by omega)
  · intro st hg fs hc items hlen h
    rw [walkV_obj_hit limit fs st hg hc hlen]
    simp only [Bool.or_eq_true, decide_eq_true_eq, not_or] at hg
    omega
  · intro st hg fs hc items hlen ih h
    rw [walkV_obj_rec limit fs st hg (fun hcontra => hlen hcontra.2)]
    simp only [Bool.or_eq_true, decide_eq_true_eq, not_or] at hg
    exact ih (by omega)
  · intro st hg fs hc ih h
    rw [walkV_obj_rec limit fs st hg (fun hcontra => hc hcontra.1)]
    simp only [Bool.or_eq_true, decide_eq_true_eq, not_or] at hg
    exact ih (by omega)
  · intro t st hg hna hno h
    rw [walkV_scalar limit t st hg (fun xs hx => hna xs hx) (fun fs hx => hno fs hx)]
    simp only [Bool.or_eq_true, decide_eq_true_eq, not_or] at hg
    omega
  · intro st h
    rw [walkL_nil]
    exact h
  · intro st x rest ih1 ih2 h
    rw [walkL_cons]
    exact ih2 (ih1 h)
  · intro st h
    rw [walkO_nil]
    exact h
  · intro st kv rest ih1 ih2 h
    rw [walkO_cons]
    exact ih2 (ih1 h)

/-- Evaluation of the walk on a `null` leaf. -/
theorem walkV_null_eval (limit : Nat) (st : Nat × List Obj) :
    walkV limit .null st =
      if (decide (st.1 > limit) || decide (st.2.length > 500)) = true then st
      else (st.1 + 1, st.2) := by
  rw [walkV.eq_def]

/-- Closed form of the element loop over `n` null leaves: the counter
advances to `min (v + n) (limit + 1)` — one past the cap. -/
theorem walkL_replicate_null (limit : Nat) :
    ∀ (n v : Nat) (f : List Obj), f.length ≤ 500 →
      walkL limit (List.replicate n .null) (v, f) =
        ((if v > limit then v else min (v + n) (limit + 1)), f) := by
  intro n
  induction n with
  | zero =>
      intro v f hf
      rw [List.replicate_zero, walkL_nil]
      simp only [Prod.mk.injEq]
      refine ⟨?_, trivial⟩
      split_ifs <;> omega
  | succ n ihn =>
      intro v f hf
      rw [List.replicate_succ, walkL_cons, walkV_null_eval]
      by_cases hg : v > limit
      · rw [if_pos (by simp [hg])]
        rw [ihn v f hf]
        simp [hg]
      · rw [if_neg (by simp; omega)]
        rw [ihn (v + 1) f hf]
        simp only [Prod.mk.injEq]
        refine ⟨?_, trivial⟩
        split_ifs <;> omega

/-- C9 counterexample: on a 6000-element array of scalars the walk with
the source's cap 5000 processes 5001 nodes — the guard `visited > limit`
admits one increment past the cap, so "never exceeds the visit bound
5000" fails. -/
theorem deep_scan_visit_bound_cex :
    (walkV 5000 (.arr (List.replicate 6000 .null)) (0, [])).1 = 5001 ∧
    5000 < 5001 := by
  refine ⟨?_, by norm_num⟩
  have hcond : (!(List.replicate 6000 JVal.null).isEmpty
      && (List.replicate 6000 JVal.null).all isDict) = false := by
    rw [show (6000 : Nat) = 5999 + 1 from rfl, List.replicate_succ]
    simp only [List.isEmpty_cons, Bool.not_false, List.all_cons, isDict,
      Bool.true_and, Bool.false_and]
  rw [walkV_arr_rec 5000 (List.replicate 6000 .null) (0, []) (by simp)
    (fun hcontra => by rw [hcond] at hcontra; cases hcontra.1)]
  rw [walkL_replicate_null 5000 6000 1 [] (by norm_num)]
  norm_num

/-- C9 (amended): the deep scan's walk always terminates (it is a total
function of the input) and, started from a fresh state, processes at
most `limit + 1` nodes — one more than the visited cap, 5001 at the
source's cap of 5000 — for every JSON value and every cap. -/
theorem deep_scan_visit_bound :
    ∀ (limit : Nat) (x : JVal), (walkV limit x (0, [])).1 ≤ limit + 1 :=
  fun limit x => walk_visited_le limit x (0, []) (by omega)
